import Mathlib

/-!
Verification of the MPIR-to-PMIx shim (`src/mpirshim.c`).

The shim's coordination core is embedded shallowly:

* the proctable materialisation loop of `pmix_proc_table_to_mpir` becomes a
  fold over the list of per-process records returned by the proctable query;
* the event handlers (`default_event_handler`, `launcher_terminate_handler`)
  become pure state-transition functions on records of the globals they touch;
* `finalize_as_tool` becomes a state transition on the `pmix_initialized`
  counter, parameterised by the result of the underlying `PMIx_tool_finalize`;
* `process_options` and the driver sequence of `MPIR_Shim_common` become a
  function of an environment record that fixes the outcome of each external
  PMIx operation and the scheduling of the asynchronous launcher-terminate
  event relative to the proctable materialisation.

External PMIx calls are out of scope; their outcomes are inputs (fields of
`DriverEnv`).  C `char *` values that may be NULL are `Option String`;
C int counters are `Int`.
-/

namespace MpirShim

/-- MPIR debug state `MPIR_NULL` (0). -/
def MPIR_NULL : Nat := 0

/-- MPIR debug state `MPIR_DEBUG_SPAWNED` (1). -/
def MPIR_DEBUG_SPAWNED : Nat := 1

/-- MPIR debug state `MPIR_DEBUG_ABORTING` (2). -/
def MPIR_DEBUG_ABORTING : Nat := 2

/-- `STATUS_OK` return value of the shim's internal functions. -/
def STATUS_OK : Int := 0

/-- `STATUS_FAIL` return value of the shim's internal functions. -/
def STATUS_FAIL : Int := 1

/-- One `pmix_proc_info_t` record of the proctable query response:
`{proc{nspace,rank}, hostname, executable_name, pid, exit_code, state}`. -/
structure ProcInfoRec where
  nspace : String
  rank : Nat
  hostname : String
  executable_name : String
  pid : Int
  exit_code : Int
  state : Nat
deriving DecidableEq

/-- `MPIR_PROCDESC`: `{char *host_name; char *executable_name; int pid;}`.
The string pointers may be NULL, hence `Option`. -/
structure MPIR_PROCDESC where
  host_name : Option String
  executable_name : Option String
  pid : Int
deriving DecidableEq

/-- The descriptor built from one query record, as in the loop body of
`pmix_proc_table_to_mpir`: `pid` copied, both strings `strdup`ed (non-null). -/
def procDescOf (r : ProcInfoRec) : MPIR_PROCDESC :=
  { host_name := some r.hostname
    executable_name := some r.executable_name
    pid := r.pid }

/-- The materialisation loop of `pmix_proc_table_to_mpir`: for each record
`proc_info[i]`, write its descriptor at index `proc_info[i].proc.rank`.
The freshly `malloc`ed table is a list of `Option MPIR_PROCDESC`, `none`
meaning "never written".  `List.set` is a no-op out of bounds; an
out-of-bounds rank is treated separately (see the well-definedness theorem). -/
def materializeLoop (recs : List ProcInfoRec)
    (tbl : List (Option MPIR_PROCDESC)) : List (Option MPIR_PROCDESC) :=
  recs.foldl (fun t r => t.set r.rank (some (procDescOf r))) tbl

/-- `pmix_proc_table_to_mpir`, materialisation part: sets
`MPIR_proctable_size` to the response array size and fills the table.
Returns `(MPIR_proctable_size, MPIR_proctable)`. -/
def pmix_proc_table_to_mpir (recs : List ProcInfoRec) :
    Nat × List (Option MPIR_PROCDESC) :=
  (recs.length, materializeLoop recs (List.replicate recs.length none))

/-- The table built by `pmix_proc_table_to_mpir`. -/
def tableOf (recs : List ProcInfoRec) : List (Option MPIR_PROCDESC) :=
  (pmix_proc_table_to_mpir recs).2

/-- Every write of the materialisation loop lands inside the allocated table. -/
def writesInBounds (recs : List ProcInfoRec) : Prop :=
  ∀ r ∈ recs, r.rank < recs.length

/-- Every entry of the table was initialised by some write. -/
def populated (tbl : List (Option MPIR_PROCDESC)) : Prop :=
  ∀ x ∈ tbl, x ≠ none

theorem materializeLoop_length (recs : List ProcInfoRec)
    (tbl : List (Option MPIR_PROCDESC)) :
    (materializeLoop recs tbl).length = tbl.length := by
  induction recs generalizing tbl with
  | nil => rfl
  | cons a rest ih =>
    simp [materializeLoop] at ih ⊢
    rw [ih, List.length_set]

theorem materializeLoop_getElem?_of_not_mem (recs : List ProcInfoRec)
    (tbl : List (Option MPIR_PROCDESC)) (i : Nat)
    (h : i ∉ recs.map ProcInfoRec.rank) :
    (materializeLoop recs tbl)[i]? = tbl[i]? := by
  induction recs generalizing tbl with
  | nil => rfl
  | cons a rest ih =>
    simp only [List.map_cons, List.mem_cons, not_or] at h
    simp only [materializeLoop, List.foldl_cons]
    rw [show (List.foldl (fun t r => t.set r.rank (some (procDescOf r)))
          (tbl.set a.rank (some (procDescOf a))) rest)
        = materializeLoop rest (tbl.set a.rank (some (procDescOf a))) from rfl]
    rw [ih _ h.2, List.getElem?_set_ne (fun hh => h.1 hh.symm)]

theorem materializeLoop_getElem?_mem (recs : List ProcInfoRec)
    (tbl : List (Option MPIR_PROCDESC))
    (hnd : (recs.map ProcInfoRec.rank).Nodup)
    (hb : ∀ r ∈ recs, r.rank < tbl.length) :
    ∀ r ∈ recs, (materializeLoop recs tbl)[r.rank]? = some (some (procDescOf r)) := by
  induction recs generalizing tbl with
  | nil => intro r hr; cases hr
  | cons a rest ih =>
    intro r hr
    simp only [List.map_cons, List.nodup_cons] at hnd
    rcases List.mem_cons.mp hr with hr | hr
    · subst hr
      simp only [materializeLoop, List.foldl_cons]
      rw [show (List.foldl (fun t q => t.set q.rank (some (procDescOf q)))
            (tbl.set r.rank (some (procDescOf r))) rest)
          = materializeLoop rest (tbl.set r.rank (some (procDescOf r))) from rfl]
      rw [materializeLoop_getElem?_of_not_mem _ _ _ hnd.1]
      exact List.getElem?_set_eq_of_lt _ (hb r (List.mem_cons_self _ _))
    · simp only [materializeLoop, List.foldl_cons]
      rw [show (List.foldl (fun t q => t.set q.rank (some (procDescOf q)))
            (tbl.set a.rank (some (procDescOf a))) rest)
          = materializeLoop rest (tbl.set a.rank (some (procDescOf a))) from rfl]
      exact ih _ hnd.2
        (fun q hq => by rw [List.length_set]; exact hb q (List.mem_cons_of_mem _ hq))
        r hr

theorem materializeLoop_hit (recs : List ProcInfoRec)
    (tbl : List (Option MPIR_PROCDESC)) (i : Nat) (d : MPIR_PROCDESC)
    (h : (materializeLoop recs tbl)[i]? = some (some d)) :
    tbl[i]? = some (some d) ∨ i ∈ recs.map ProcInfoRec.rank := by
  induction recs generalizing tbl with
  | nil => exact Or.inl h
  | cons a rest ih =>
    simp only [materializeLoop, List.foldl_cons] at h
    rw [show (List.foldl (fun t q => t.set q.rank (some (procDescOf q)))
          (tbl.set a.rank (some (procDescOf a))) rest)
        = materializeLoop rest (tbl.set a.rank (some (procDescOf a))) from rfl] at h
    rcases ih _ h with h' | h'
    · by_cases hi : i = a.rank
      · exact Or.inr (by simp [hi])
      · rw [List.getElem?_set_ne (fun hh => hi hh.symm)] at h'
        exact Or.inl h'
    · exact Or.inr (by simp [h'] )

/-- C1: for every proctable query response whose records carry exactly the
ranks `0..N-1` (in any arrival order), `pmix_proc_table_to_mpir` sets
`MPIR_proctable_size` to `N`, materialises a table of `N` entries, and the
entry at each index `i` has non-null `host_name` and `executable_name` and
the pid of the record whose rank is `i`. -/
theorem proctable_shape (recs : List ProcInfoRec)
    (h : (recs.map ProcInfoRec.rank).Perm (List.range recs.length)) :
    (pmix_proc_table_to_mpir recs).1 = recs.length ∧
    (pmix_proc_table_to_mpir recs).2.length = recs.length ∧
    ∀ i, i < recs.length →
      ∃ d : MPIR_PROCDESC,
        (pmix_proc_table_to_mpir recs).2[i]? = some (some d) ∧
        d.host_name ≠ none ∧ d.executable_name ≠ none ∧
        ∀ r ∈ recs, r.rank = i → d.pid = r.pid := by
  have hnd : (recs.map ProcInfoRec.rank).Nodup :=
    h.nodup_iff.mpr (List.nodup_range _)
  have hb : ∀ r ∈ recs, r.rank < recs.length := by
    intro r hr
    have : r.rank ∈ recs.map ProcInfoRec.rank := List.mem_map_of_mem _ hr
    have := h.mem_iff.mp this
    exact List.mem_range.mp this
  refine ⟨rfl, ?_, ?_⟩
  · simpa [pmix_proc_table_to_mpir] using
      materializeLoop_length recs (List.replicate recs.length none)
  · intro i hi
    have hmem : i ∈ recs.map ProcInfoRec.rank :=
      h.mem_iff.mpr (List.mem_range.mpr hi)
    rcases List.mem_map.mp hmem with ⟨r, hr, hrank⟩
    refine ⟨procDescOf r, ?_, by simp [procDescOf], by simp [procDescOf], ?_⟩
    · have := materializeLoop_getElem?_mem recs
        (List.replicate recs.length none) hnd
        (by simpa using hb) r hr
      simpa [pmix_proc_table_to_mpir, hrank] using this
    · intro q hq hqrank
      have : q.rank = r.rank := by rw [hqrank, hrank]
      have hqr : q = r := by
        have hinj := List.inj_on_of_nodup_map hnd
        exact hinj hq hr this
      rw [hqr, procDescOf]

/-- Witness for `proctable_shape`: a concrete two-record response arriving in
reverse rank order. -/
theorem proctable_shape_witness :
    (([⟨"app", 1, "node1", "a.out", 101, 0, 0⟩,
       ⟨"app", 0, "node0", "a.out", 100, 0, 0⟩] :
        List ProcInfoRec).map ProcInfoRec.rank).Perm
      (List.range ([⟨"app", 1, "node1", "a.out", 101, 0, 0⟩,
       ⟨"app", 0, "node0", "a.out", 100, 0, 0⟩] :
        List ProcInfoRec).length) ∧
    ((pmix_proc_table_to_mpir
        [⟨"app", 1, "node1", "a.out", 101, 0, 0⟩,
         ⟨"app", 0, "node0", "a.out", 100, 0, 0⟩]).1 = 2 ∧
     (pmix_proc_table_to_mpir
        [⟨"app", 1, "node1", "a.out", 101, 0, 0⟩,
         ⟨"app", 0, "node0", "a.out", 100, 0, 0⟩]).2.length = 2 ∧
     ∀ i, i < 2 →
      ∃ d : MPIR_PROCDESC,
        (pmix_proc_table_to_mpir
          [⟨"app", 1, "node1", "a.out", 101, 0, 0⟩,
           ⟨"app", 0, "node0", "a.out", 100, 0, 0⟩]).2[i]? = some (some d) ∧
        d.host_name ≠ none ∧ d.executable_name ≠ none ∧
        ∀ r ∈ ([⟨"app", 1, "node1", "a.out", 101, 0, 0⟩,
               ⟨"app", 0, "node0", "a.out", 100, 0, 0⟩] : List ProcInfoRec),
          r.rank = i → d.pid = r.pid) :=
  ⟨by decide, proctable_shape _ (by decide)⟩

/-- C10: the materialisation loop is well defined (all writes inside the
allocated table and every one of the `N` entries initialised) exactly when the
records' ranks are the set `{0, ..., N-1}`; and there is a response violating
that precondition whose indexing step falls outside the table. -/
theorem proctable_welldefined_iff_rank_perm :
    (∀ recs : List ProcInfoRec,
      (writesInBounds recs ∧ populated (tableOf recs)) ↔
        (recs.map ProcInfoRec.rank).Perm (List.range recs.length)) ∧
    (∃ recs : List ProcInfoRec,
      ¬ (recs.map ProcInfoRec.rank).Perm (List.range recs.length) ∧
      ∃ r ∈ recs, recs.length ≤ r.rank) := by
  constructor
  · intro recs
    constructor
    · rintro ⟨-, hpop⟩
      have hsub : List.range recs.length ⊆ recs.map ProcInfoRec.rank := by
        intro i hi
        have hi' : i < recs.length := List.mem_range.mp hi
        have hlen : (tableOf recs).length = recs.length := by
          simpa [tableOf, pmix_proc_table_to_mpir] using
            materializeLoop_length recs (List.replicate recs.length none)
        have hget : ∃ x, (tableOf recs)[i]? = some x := by
          refine ⟨(tableOf recs)[i], ?_⟩
          exact List.getElem?_eq_getElem (by omega)
        rcases hget with ⟨x, hx⟩
        have hxmem : x ∈ tableOf recs := by
          rcases List.getElem?_eq_some.mp hx with ⟨hlt, hEq⟩
          exact hEq ▸ List.getElem_mem hlt
        have hxne : x ≠ none := hpop x hxmem
        rcases x with - | d
        · exact absurd rfl hxne
        · have := materializeLoop_hit recs (List.replicate recs.length none) i d
            (by simpa [tableOf, pmix_proc_table_to_mpir] using hx)
          rcases this with hrep | hmem
          · rw [List.getElem?_replicate] at hrep
            by_cases hlt : i < recs.length <;> simp [hlt] at hrep
          · exact hmem
      have hsp : List.Subperm (List.range recs.length)
          (recs.map ProcInfoRec.rank) :=
        (List.nodup_range _).subperm hsub
      have hperm : (List.range recs.length).Perm (recs.map ProcInfoRec.rank) :=
        hsp.perm_of_length_le (by simp)
      exact hperm.symm
    · intro h
      have hnd : (recs.map ProcInfoRec.rank).Nodup :=
        h.nodup_iff.mpr (List.nodup_range _)
      have hb : ∀ r ∈ recs, r.rank < recs.length := by
        intro r hr
        exact List.mem_range.mp
          (h.mem_iff.mp (List.mem_map_of_mem _ hr))
      refine ⟨hb, ?_⟩
      intro x hx hxnone
      subst hxnone
      rcases List.mem_iff_getElem.mp hx with ⟨i, hilen, hi⟩
      have hlen : (tableOf recs).length = recs.length := by
        simpa [tableOf, pmix_proc_table_to_mpir] using
          materializeLoop_length recs (List.replicate recs.length none)
      have hi' : i < recs.length := by omega
      have hi : (tableOf recs)[i]? = some none := by
        rw [List.getElem?_eq_getElem hilen, hi]
      have hmem : i ∈ recs.map ProcInfoRec.rank :=
        h.mem_iff.mpr (List.mem_range.mpr hi')
      rcases List.mem_map.mp hmem with ⟨r, hr, hrank⟩
      have := materializeLoop_getElem?_mem recs
        (List.replicate recs.length none) hnd (by simpa using hb) r hr
      rw [hrank] at this
      have : (tableOf recs)[i]? = some (some (procDescOf r)) := by
        simpa [tableOf, pmix_proc_table_to_mpir] using this
      rw [this] at hi
      cases hi
  · exact ⟨[⟨"app", 5, "node0", "a.out", 100, 0, 0⟩], by decide,
      ⟨"app", 5, "node0", "a.out", 100, 0, 0⟩, by decide, by decide⟩

/-- The four named latches (`MPIR_Shim_Condition.flag` fields):
`registration`, `ready-for-debug`, `launch_complete`, `launch-terminated`.
Flag 1 = armed, 0 = posted. -/
structure Latches where
  registration : Nat
  readyForDebug : Nat
  launchComplete : Nat
  launchTerm : Nat
deriving DecidableEq

/-- One branch of `release_conditions`: broadcast and clear a flag only when
it is exactly 1. -/
def relFlag (f : Nat) : Nat := if f = 1 then 0 else f

/-- `release_conditions`: post every latch whose flag is 1. -/
def release_conditions (l : Latches) : Latches :=
  ⟨relFlag l.registration, relFlag l.readyForDebug,
   relFlag l.launchComplete, relFlag l.launchTerm⟩

/-- Keys of `pmix_info_t` items that `launcher_terminate_handler` inspects:
`PMIX_EXIT_CODE`, `PMIX_JOB_TERM_STATUS`, `PMIX_EVENT_AFFECTED_PROC`, and
anything else. -/
inductive InfoKey
  | exitCode
  | jobTermStatus
  | affectedProc
  | otherKey
deriving DecidableEq

/-- A `pmix_info_t` item as seen by the terminate handlers: its key and the
integer payload read for the code-carrying keys. -/
structure InfoItem where
  key : InfoKey
  ival : Int
deriving DecidableEq

/-- The abort string formatted by `launcher_terminate_handler` via `asprintf`. -/
def launcherAbortMsg (c : Int) : String :=
  "The launcher exited with return code " ++ toString c

/-- The globals touched by `launcher_terminate_handler`, plus a flag recording
whether the handler invoked `cbfunc(PMIX_EVENT_ACTION_COMPLETE, ...)`. -/
structure TermState where
  MPIR_debug_state : Nat
  MPIR_debug_abort_string : Option String
  launcher_exit_code : Int
  launcher_terminated : Nat
  latches : Latches
  contCalled : Bool
deriving DecidableEq

/-- One iteration of the info-scanning loop of `launcher_terminate_handler`:
on `PMIX_EXIT_CODE` or `PMIX_JOB_TERM_STATUS`, capture the code; when it is
non-zero, set `MPIR_debug_state = MPIR_DEBUG_ABORTING` and format the abort
string if it is still NULL. -/
def termStep (st : TermState) (it : InfoItem) : TermState :=
  match it.key with
  | .exitCode =>
    let st1 := { st with launcher_exit_code := it.ival }
    if it.ival ≠ 0 then
      { st1 with MPIR_debug_state := MPIR_DEBUG_ABORTING
                 MPIR_debug_abort_string :=
                   match st1.MPIR_debug_abort_string with
                   | none => some (launcherAbortMsg it.ival)
                   | some s => some s }
    else st1
  | .jobTermStatus =>
    let st1 := { st with launcher_exit_code := it.ival }
    if it.ival ≠ 0 then
      { st1 with MPIR_debug_state := MPIR_DEBUG_ABORTING
                 MPIR_debug_abort_string :=
                   match st1.MPIR_debug_abort_string with
                   | none => some (launcherAbortMsg it.ival)
                   | some s => some s }
    else st1
  | _ => st

/-- `launcher_terminate_handler`: scan the info items, mark the launcher
terminated (value 1), post the `launch-terminated` latch, release every
latch, then invoke the continuation when non-null. -/
def launcher_terminate_handler (info : List InfoItem) (hasCb : Bool)
    (s : TermState) : TermState :=
  let s1 := info.foldl termStep s
  let s2 := { s1 with launcher_terminated := 1 }
  let s3 := { s2 with latches := { s2.latches with launchTerm := 0 } }
  let s4 := { s3 with latches := release_conditions s3.latches }
  { s4 with contCalled := hasCb }

/-- An info item carrying a non-zero exit code under one of the two keys the
terminate handlers inspect. -/
def isCodeItem (it : InfoItem) : Bool :=
  (it.key == InfoKey.exitCode || it.key == InfoKey.jobTermStatus) && it.ival != 0

/-- The code of the first info item whose non-zero code the scanning loop
acts on (the abort string, once set, is never overwritten). -/
def firstNonzeroCode (info : List InfoItem) : Option Int :=
  (info.find? isCodeItem).map InfoItem.ival

theorem isCodeItem_elim (a : InfoItem) (ha : isCodeItem a = true) :
    (a.key = InfoKey.exitCode ∨ a.key = InfoKey.jobTermStatus) ∧ a.ival ≠ 0 := by
  simpa [isCodeItem] using ha

theorem termStep_code_state (st : TermState) (a : InfoItem)
    (ha : isCodeItem a = true) :
    (termStep st a).MPIR_debug_state = MPIR_DEBUG_ABORTING := by
  rcases isCodeItem_elim a ha with ⟨hk | hk, hz⟩ <;>
    · unfold termStep
      rw [hk]
      simp [hz]

theorem termStep_code_abort_none (st : TermState) (a : InfoItem)
    (ha : isCodeItem a = true) (hnone : st.MPIR_debug_abort_string = none) :
    (termStep st a).MPIR_debug_abort_string = some (launcherAbortMsg a.ival) := by
  rcases isCodeItem_elim a ha with ⟨hk | hk, hz⟩ <;>
    · unfold termStep
      rw [hk]
      simp [hz, hnone]

theorem termStep_state_aborting (st : TermState) (it : InfoItem)
    (h : st.MPIR_debug_state = MPIR_DEBUG_ABORTING) :
    (termStep st it).MPIR_debug_state = MPIR_DEBUG_ABORTING := by
  unfold termStep
  cases it.key <;> (try exact h) <;> split <;> simp [h, apply_ite]

theorem termStep_abort_some (st : TermState) (it : InfoItem) (m : String)
    (h : st.MPIR_debug_abort_string = some m) :
    (termStep st it).MPIR_debug_abort_string = some m := by
  unfold termStep
  cases it.key <;> (try exact h) <;> split <;> simp [h, apply_ite]

theorem termStep_not_code (st : TermState) (it : InfoItem)
    (h : isCodeItem it = false) :
    (termStep st it).MPIR_debug_state = st.MPIR_debug_state ∧
    (termStep st it).MPIR_debug_abort_string = st.MPIR_debug_abort_string := by
  unfold termStep
  unfold isCodeItem at h
  cases hk : it.key <;> rw [hk] at h <;> simp at h ⊢ <;> simp [h]

theorem termFold_state_aborting (info : List InfoItem) (st : TermState)
    (h : st.MPIR_debug_state = MPIR_DEBUG_ABORTING) :
    (info.foldl termStep st).MPIR_debug_state = MPIR_DEBUG_ABORTING := by
  induction info generalizing st with
  | nil => exact h
  | cons a rest ih => exact ih _ (termStep_state_aborting _ _ h)

theorem termFold_abort_some (info : List InfoItem) (st : TermState) (m : String)
    (h : st.MPIR_debug_abort_string = some m) :
    (info.foldl termStep st).MPIR_debug_abort_string = some m := by
  induction info generalizing st with
  | nil => exact h
  | cons a rest ih => exact ih _ (termStep_abort_some _ _ _ h)

theorem termFold_aborts (info : List InfoItem) (st : TermState)
    (h : ∃ it ∈ info, isCodeItem it = true) :
    (info.foldl termStep st).MPIR_debug_state = MPIR_DEBUG_ABORTING := by
  induction info generalizing st with
  | nil => rcases h with ⟨it, hit, -⟩; cases hit
  | cons a rest ih =>
    by_cases ha : isCodeItem a = true
    · exact termFold_state_aborting rest _ (termStep_code_state st a ha)
    · rcases h with ⟨it, hit, hcode⟩
      rcases List.mem_cons.mp hit with rfl | hit'
      · exact absurd hcode ha
      · exact ih _ ⟨it, hit', hcode⟩

theorem termFold_sets_abort_string (info : List InfoItem) (st : TermState)
    (hnone : st.MPIR_debug_abort_string = none) (c : Int)
    (hfind : firstNonzeroCode info = some c) :
    (info.foldl termStep st).MPIR_debug_abort_string =
      some (launcherAbortMsg c) := by
  induction info generalizing st with
  | nil => simp [firstNonzeroCode] at hfind
  | cons a rest ih =>
    by_cases ha : isCodeItem a = true
    · have hf : List.find? isCodeItem (a :: rest) = some a :=
        List.find?_cons_of_pos rest ha
      have hfa : firstNonzeroCode (a :: rest) = some a.ival := by
        simp [firstNonzeroCode, hf]
      rw [hfa] at hfind
      cases hfind
      exact termFold_abort_some rest _ _ (termStep_code_abort_none st a ha hnone)
    · have ha' : isCodeItem a = false := by simpa using ha
      have hf : List.find? isCodeItem (a :: rest) = List.find? isCodeItem rest :=
        List.find?_cons_of_neg rest (by simp [ha'])
      have hfa : firstNonzeroCode (a :: rest) = firstNonzeroCode rest := by
        simp [firstNonzeroCode, hf]
      rw [hfa] at hfind
      exact ih _ ((termStep_not_code st a ha').2.trans hnone) hfind

theorem termStep_latches (st : TermState) (it : InfoItem) :
    (termStep st it).latches = st.latches := by
  unfold termStep
  cases it.key <;> (try rfl) <;> split <;> split <;> rfl

theorem termFold_latches (info : List InfoItem) (st : TermState) :
    (info.foldl termStep st).latches = st.latches := by
  induction info generalizing st with
  | nil => rfl
  | cons a rest ih => exact (ih _).trans (termStep_latches _ _)

theorem relFlag_of_le_one (f : Nat) (h : f ≤ 1) : relFlag f = 0 := by
  unfold relFlag
  interval_cases f <;> simp

/-- C4: when `launcher_terminate_handler` receives a `JOB_TERMINATED` event
whose info items carry a non-zero `EXIT_CODE` or `JOB_TERM_STATUS`, it sets
`MPIR_debug_state` to ABORTING, sets `MPIR_debug_abort_string` to
"The launcher exited with return code [code]" only if no abort string was
already set, sets the launcher-terminated flag to 1, posts the `launch-term`
latch and then broadcasts all latches.  (Latch flags are 0 or 1.) -/
theorem launcher_terminate_aborts (info : List InfoItem) (hasCb : Bool)
    (s : TermState)
    (hcode : ∃ it ∈ info, isCodeItem it = true)
    (hreg : s.latches.registration ≤ 1)
    (hready : s.latches.readyForDebug ≤ 1)
    (hcomp : s.latches.launchComplete ≤ 1) :
    (launcher_terminate_handler info hasCb s).MPIR_debug_state
        = MPIR_DEBUG_ABORTING ∧
    (s.MPIR_debug_abort_string = none →
      ∃ c, firstNonzeroCode info = some c ∧
        (launcher_terminate_handler info hasCb s).MPIR_debug_abort_string
          = some (launcherAbortMsg c)) ∧
    (∀ m, s.MPIR_debug_abort_string = some m →
      (launcher_terminate_handler info hasCb s).MPIR_debug_abort_string
        = some m) ∧
    (launcher_terminate_handler info hasCb s).launcher_terminated = 1 ∧
    (launcher_terminate_handler info hasCb s).latches = ⟨0, 0, 0, 0⟩ := by
  refine ⟨?_, ?_, ?_, rfl, ?_⟩
  · simpa [launcher_terminate_handler] using termFold_aborts info s hcode
  · intro hnone
    rcases hfind : info.find? isCodeItem with - | a
    · exfalso
      rcases hcode with ⟨it, hit, hp⟩
      have := List.find?_eq_none.mp hfind it hit
      simp [hp] at this
    · refine ⟨a.ival, by simp [firstNonzeroCode, hfind], ?_⟩
      simpa [launcher_terminate_handler] using
        termFold_sets_abort_string info s hnone a.ival
          (by simp [firstNonzeroCode, hfind])
  · intro m hm
    simpa [launcher_terminate_handler] using
      termFold_abort_some info s m hm
  · have hl : (info.foldl termStep s).latches = s.latches :=
      termFold_latches info s
    simp only [launcher_terminate_handler]
    simp [hl, release_conditions, relFlag_of_le_one _ hreg,
      relFlag_of_le_one _ hready, relFlag_of_le_one _ hcomp,
      relFlag_of_le_one 0 (by simp)]

/-- Witness for `launcher_terminate_aborts`: a single `EXIT_CODE` item
carrying code 42, all latches armed, no abort string set. -/
theorem launcher_terminate_aborts_witness :
    (∃ it ∈ [InfoItem.mk InfoKey.exitCode 42], isCodeItem it = true) ∧
    ((launcher_terminate_handler [InfoItem.mk InfoKey.exitCode 42] true
        ⟨MPIR_NULL, none, 0, 0, ⟨1, 1, 1, 1⟩, false⟩).MPIR_debug_state
        = MPIR_DEBUG_ABORTING ∧
     ((⟨MPIR_NULL, none, 0, 0, ⟨1, 1, 1, 1⟩, false⟩ :
        TermState).MPIR_debug_abort_string = none →
      ∃ c, firstNonzeroCode [InfoItem.mk InfoKey.exitCode 42] = some c ∧
        (launcher_terminate_handler [InfoItem.mk InfoKey.exitCode 42] true
          ⟨MPIR_NULL, none, 0, 0, ⟨1, 1, 1, 1⟩, false⟩).MPIR_debug_abort_string
          = some (launcherAbortMsg c)) ∧
     (∀ m, (⟨MPIR_NULL, none, 0, 0, ⟨1, 1, 1, 1⟩, false⟩ :
        TermState).MPIR_debug_abort_string = some m →
      (launcher_terminate_handler [InfoItem.mk InfoKey.exitCode 42] true
        ⟨MPIR_NULL, none, 0, 0, ⟨1, 1, 1, 1⟩, false⟩).MPIR_debug_abort_string
        = some m) ∧
     (launcher_terminate_handler [InfoItem.mk InfoKey.exitCode 42] true
        ⟨MPIR_NULL, none, 0, 0, ⟨1, 1, 1, 1⟩, false⟩).launcher_terminated = 1 ∧
     (launcher_terminate_handler [InfoItem.mk InfoKey.exitCode 42] true
        ⟨MPIR_NULL, none, 0, 0, ⟨1, 1, 1, 1⟩, false⟩).latches = ⟨0, 0, 0, 0⟩) :=
  ⟨by decide, launcher_terminate_aborts _ _ _ (by decide)
    (by decide) (by decide) (by decide)⟩

theorem release_conditions_all (l : Latches)
    (h1 : l.registration ≤ 1) (h2 : l.readyForDebug ≤ 1)
    (h3 : l.launchComplete ≤ 1) (h4 : l.launchTerm ≤ 1) :
    release_conditions l = ⟨0, 0, 0, 0⟩ := by
  simp [release_conditions, relFlag_of_le_one _ h1, relFlag_of_le_one _ h2,
    relFlag_of_le_one _ h3, relFlag_of_le_one _ h4]

/-- PMIx event statuses as discriminated by `default_event_handler`:
`PMIX_ERR_LOST_CONNECTION_TO_SERVER` versus any other event. -/
inductive PmixEvent
  | lostConnectionToServer
  | otherEvent (code : Int)
deriving DecidableEq

/-- The observable outcome of one `default_event_handler` invocation:
whether the process terminated via `_exit` (and with what code), the
resulting `session_count`, the latch flags, and whether the handler invoked
`cbfunc(PMIX_EVENT_ACTION_COMPLETE, ...)`. -/
structure DefaultHandlerResult where
  exited : Option Int
  session_count : Int
  latches : Latches
  contCalled : Bool
deriving DecidableEq

/-- `default_event_handler`: on lost connection with a single session,
release all conditions and `_exit(1)`; on lost connection otherwise,
decrement the session count; then invoke the continuation when non-null. -/
def default_event_handler (status : PmixEvent) (hasCb : Bool)
    (sc : Int) (l : Latches) : DefaultHandlerResult :=
  if status = PmixEvent.lostConnectionToServer then
    if sc = 1 then
      { exited := some 1, session_count := sc
        latches := release_conditions l, contCalled := false }
    else
      { exited := none, session_count := sc - 1
        latches := l, contCalled := hasCb }
  else
    { exited := none, session_count := sc, latches := l, contCalled := hasCb }

/-- C5 counterexample: on a lost-connection event with session count 1 and a
non-null continuation, `default_event_handler` terminates via `_exit(1)`
without invoking the continuation, so the handler does not invoke the
supplied continuation in all cases. -/
theorem default_handler_exit_no_continuation :
    (default_event_handler PmixEvent.lostConnectionToServer true 1
      ⟨1, 1, 1, 1⟩).exited = some 1 ∧
    (default_event_handler PmixEvent.lostConnectionToServer true 1
      ⟨1, 1, 1, 1⟩).contCalled = false := by
  constructor <;> rfl

/-- C5 (amended): lost connection with session count 1 broadcasts all
latches and terminates via `_exit(1)` without invoking the continuation;
lost connection with session count above 1 decrements the count by one and
invokes the continuation when non-null; any other event leaves the state
unchanged and invokes the continuation when non-null. -/
theorem default_handler_behaviour (status : PmixEvent) (hasCb : Bool)
    (sc : Int) (l : Latches)
    (h1 : l.registration ≤ 1) (h2 : l.readyForDebug ≤ 1)
    (h3 : l.launchComplete ≤ 1) (h4 : l.launchTerm ≤ 1) :
    (status = PmixEvent.lostConnectionToServer → sc = 1 →
      (default_event_handler status hasCb sc l).exited = some 1 ∧
      (default_event_handler status hasCb sc l).latches = ⟨0, 0, 0, 0⟩ ∧
      (default_event_handler status hasCb sc l).contCalled = false) ∧
    (status = PmixEvent.lostConnectionToServer → 1 < sc →
      (default_event_handler status hasCb sc l).exited = none ∧
      (default_event_handler status hasCb sc l).session_count = sc - 1 ∧
      (default_event_handler status hasCb sc l).contCalled = hasCb) ∧
    (status ≠ PmixEvent.lostConnectionToServer →
      (default_event_handler status hasCb sc l).exited = none ∧
      (default_event_handler status hasCb sc l).session_count = sc ∧
      (default_event_handler status hasCb sc l).latches = l ∧
      (default_event_handler status hasCb sc l).contCalled = hasCb) := by
  refine ⟨?_, ?_, ?_⟩
  · intro hs hsc
    subst hs
    simp [default_event_handler, hsc, release_conditions_all l h1 h2 h3 h4]
  · intro hs hsc
    subst hs
    have hne : sc ≠ 1 := by omega
    simp [default_event_handler, hne]
  · intro hs
    simp [default_event_handler, hs]

/-- Witness for `default_handler_behaviour`: a lost-connection event with
two sessions decrements to one and invokes the continuation. -/
theorem default_handler_behaviour_witness :
    ((1 : Int) < 2) ∧
    ((default_event_handler PmixEvent.lostConnectionToServer true 2
        ⟨1, 1, 1, 1⟩).exited = none ∧
     (default_event_handler PmixEvent.lostConnectionToServer true 2
        ⟨1, 1, 1, 1⟩).session_count = 2 - 1 ∧
     (default_event_handler PmixEvent.lostConnectionToServer true 2
        ⟨1, 1, 1, 1⟩).contCalled = true) :=
  ⟨by norm_num,
   (default_handler_behaviour PmixEvent.lostConnectionToServer true 2
      ⟨1, 1, 1, 1⟩ (by norm_num) (by norm_num) (by norm_num)
      (by norm_num)).2.1 rfl (by norm_num)⟩

/-- The state of the tool lifecycle: the `pmix_initialized` counter and the
number of `PMIx_tool_finalize` invocations made so far. -/
structure ToolState where
  pmix_initialized : Int
  finalizeCalls : Nat
deriving DecidableEq

/-- `finalize_as_tool`: when `0 < pmix_initialized`, call
`PMIx_tool_finalize` (whose success is the environment input `finalizeOk`),
decrement the counter, and fail when the underlying finalize failed;
otherwise do nothing and return `STATUS_OK`.  The decrement happens before
the return-code check, so it happens regardless of `finalizeOk`. -/
def finalize_as_tool (finalizeOk : Bool) (s : ToolState) : ToolState × Int :=
  if 0 < s.pmix_initialized then
    (⟨s.pmix_initialized - 1, s.finalizeCalls + 1⟩,
     if finalizeOk then STATUS_OK else STATUS_FAIL)
  else (s, STATUS_OK)

/-- C6 counterexample: with `pmix_initialized = 1` and a failing underlying
finalize, `finalize_as_tool` still decrements the counter to 0 (and returns
`STATUS_FAIL`), so the counter is not left unchanged on failure. -/
theorem finalize_decrements_on_failure :
    (finalize_as_tool false ⟨1, 0⟩).1.pmix_initialized = 0 ∧
    (finalize_as_tool false ⟨1, 0⟩).1.pmix_initialized ≠ 1 ∧
    (finalize_as_tool false ⟨1, 0⟩).2 = STATUS_FAIL := by
  refine ⟨rfl, by norm_num [finalize_as_tool], rfl⟩

/-- C6 (amended): `finalize_as_tool` invokes the underlying finalize only
when the init count is positive; in that case it decrements the count
regardless of whether the underlying finalize succeeds, and returns failure
exactly when the underlying finalize fails; when the count is not positive
it is a no-op returning success. -/
theorem finalize_as_tool_behaviour (ok : Bool) (s : ToolState) :
    (0 < s.pmix_initialized →
      (finalize_as_tool ok s).1.pmix_initialized = s.pmix_initialized - 1 ∧
      (finalize_as_tool ok s).1.finalizeCalls = s.finalizeCalls + 1 ∧
      (finalize_as_tool ok s).2 = (if ok then STATUS_OK else STATUS_FAIL)) ∧
    (s.pmix_initialized ≤ 0 →
      finalize_as_tool ok s = (s, STATUS_OK)) := by
  constructor
  · intro h
    simp [finalize_as_tool, h]
  · intro h
    have : ¬ 0 < s.pmix_initialized := by omega
    simp [finalize_as_tool, this]

/-- Witness for `finalize_as_tool_behaviour`: one initialized session,
successful underlying finalize. -/
theorem finalize_as_tool_behaviour_witness :
    ((0 : Int) < 1) ∧
    ((finalize_as_tool true ⟨1, 0⟩).1.pmix_initialized = 1 - 1 ∧
     (finalize_as_tool true ⟨1, 0⟩).1.finalizeCalls = 0 + 1 ∧
     (finalize_as_tool true ⟨1, 0⟩).2 = (if true then STATUS_OK else STATUS_FAIL)) :=
  ⟨by norm_num, (finalize_as_tool_behaviour true ⟨1, 0⟩).1 (by norm_num)⟩

/-- `finalize_as_tool` called repeatedly; `oks` gives the result of each
successive underlying `PMIx_tool_finalize`. -/
def finalizeIter (oks : Nat → Bool) : Nat → ToolState → ToolState
  | 0, s => s
  | k + 1, s => finalizeIter (fun i => oks (i + 1)) k (finalize_as_tool (oks 0) s).1

/-- C7 counterexample: from a starting state with `pmix_initialized = 2`,
two successive calls to `finalize_as_tool` leave a different post-state
(count 0, two underlying finalizes) than a single call (count 1, one
underlying finalize). -/
theorem finalize_not_idempotent_from_two :
    finalizeIter (fun _ => true) 2 ⟨2, 0⟩ ≠
      finalizeIter (fun _ => true) 1 ⟨2, 0⟩ := by
  decide

theorem finalizeIter_of_nonpos (oks : Nat → Bool) (k : Nat) (s : ToolState)
    (h : s.pmix_initialized ≤ 0) : finalizeIter oks k s = s := by
  induction k generalizing oks s with
  | zero => rfl
  | succ n ih =>
    have hno : ¬ 0 < s.pmix_initialized := by omega
    show finalizeIter (fun i => oks (i + 1)) n (finalize_as_tool (oks 0) s).1 = s
    rw [show (finalize_as_tool (oks 0) s).1 = s by simp [finalize_as_tool, hno]]
    exact ih _ _ h

/-- C7 (amended): from any starting state with `pmix_initialized ≤ 1` — the
only states the shim reaches, since `initialize_as_tool` runs at most once —
calling `finalize_as_tool` K times (K ≥ 1) leaves the same post-state as
calling it exactly once. -/
theorem finalize_idempotent_from_le_one (oks : Nat → Bool) (K : Nat)
    (s : ToolState) (hs : s.pmix_initialized ≤ 1) (hK : 1 ≤ K) :
    finalizeIter oks K s = (finalize_as_tool (oks 0) s).1 := by
  rcases K with - | k
  · omega
  · show finalizeIter (fun i => oks (i + 1)) k (finalize_as_tool (oks 0) s).1
      = (finalize_as_tool (oks 0) s).1
    refine finalizeIter_of_nonpos _ _ _ ?_
    by_cases h : 0 < s.pmix_initialized
    · simp [finalize_as_tool, h]
      omega
    · simp [finalize_as_tool, h]
      omega

/-- Witness for `finalize_idempotent_from_le_one`: three calls from a
one-session state equal one call. -/
theorem finalize_idempotent_from_le_one_witness :
    ((1 : Int) ≤ 1 ∧ 1 ≤ 3) ∧
    finalizeIter (fun _ => true) 3 ⟨1, 0⟩ =
      (finalize_as_tool ((fun _ : Nat => true) 0) ⟨1, 0⟩).1 :=
  ⟨⟨le_refl 1, by norm_num⟩,
   finalize_idempotent_from_le_one (fun _ => true) 3 ⟨1, 0⟩
     (by norm_num) (by norm_num)⟩

/-- The run modes of `mpir_shim_mode_t`.  The enum itself is declared in the
repository header `mpirshim.h`, which is not under `src/`; modelled from the
spec: {PROXY, NONPROXY, ATTACH, DYNAMIC}. -/
inductive MpirMode
  | proxy
  | nonproxy
  | attach
  | dynamic
deriving DecidableEq

/-- `strrchr(s, '/')`-style basename on the character list: the part after
the last '/', or the whole string when it contains no '/'. -/
def basenameChars (l : List Char) : List Char :=
  l.foldl (fun acc c => if c = '/' then [] else acc ++ [c]) []

/-- Basename of `argv[0]` as computed by `process_options`. -/
def basename (s : String) : String := ⟨basenameChars s.data⟩

/-- `process_options`.  `prior` is the value of the static global `mpir_mode`
before the call (`MPIR_SHIM_DYNAMIC_PROXY_MODE` at program start).  In
DYNAMIC mode the basename of `argv[0]` selects NONPROXY (`prun`) or PROXY;
in ATTACH mode a pid that is not positive is a configuration error
(`none`); any other requested mode falls through both branches and leaves
the global unchanged, exactly as in the source. -/
def process_options (prior : MpirMode) (mode_ : MpirMode) (pid_ : Int)
    (argv : List String) : Option MpirMode :=
  match mode_ with
  | MpirMode.dynamic =>
    if basename (argv.headD "") = "prun" then some MpirMode.nonproxy
    else some MpirMode.proxy
  | MpirMode.attach =>
    if pid_ ≤ 0 then none else some MpirMode.attach
  | _ => some prior

/-- The environment of one `MPIR_Shim_common` run: the outcome of every
external PMIx operation the driver performs, plus the delivery and
scheduling of the asynchronous launcher-terminate event.  `termEvent` is
`some c` when a `PMIX_ERR_JOB_TERMINATED` event for the launcher carrying
exit code `c` is delivered during the run; `termBeforeMaterialize` says its
handler ran before the `MPIR_debug_state = SPAWNED` store of the proctable
materialisation.  `proctableQuery = none` covers both a failing
`PMIx_Query_info` and a malformed response (both terminate the run with a
non-zero code, via `return STATUS_FAIL` or `pmix_fatal_error`/`exit(1)`). -/
structure DriverEnv where
  setupSignalsOk : Bool
  atexitOk : Bool
  initOk : Bool
  regDefaultOk : Bool
  spawnOk : Bool
  connectOk : Bool
  regLauncherTermOk : Bool
  regLauncherReadyOk : Bool
  releaseLauncherOk : Bool
  regLauncherCompleteOk : Bool
  readyEvent : Bool
  proctableQuery : Option (List ProcInfoRec)
  regAppTermOk : Bool
  releaseAppOk : Bool
  queryAppNamespaceOk : Bool
  termEvent : Option Int
  termBeforeMaterialize : Bool
deriving DecidableEq

/-- What a debugger attached at `MPIR_Breakpoint` observes: the value of
`MPIR_debug_state`, the table `MPIR_proctable` points to (`none` = NULL),
and `MPIR_proctable_size`. -/
structure BreakpointObs where
  debugState : Nat
  proctable : Option (List (Option MPIR_PROCDESC))
  proctableSize : Nat
deriving DecidableEq

/-- The outcome of one `MPIR_Shim_common` run: the returned exit code
(`none` = the driver thread blocks forever), the successive values taken by
`MPIR_debug_state` (initial value included), the `MPIR_Breakpoint`
observations, and whether `PMIx_tool_init` was invoked. -/
structure RunResult where
  exit : Option Int
  stateTrace : List Nat
  breakpoints : List BreakpointObs
  pmixInitCalled : Bool
deriving DecidableEq

/-- The `MPIR_debug_state` stores made by the launcher-terminate handler
during the run: one ABORTING store when the delivered event carries a
non-zero code. -/
def abortStores (termEvent : Option Int) : List Nat :=
  match termEvent with
  | some c => if c ≠ 0 then [MPIR_DEBUG_ABORTING] else []
  | none => []

/-- The `MPIR_debug_state` value sequence of a run that reaches the
proctable materialisation: the ABORTING store of the terminate handler, when
delivered, precedes or follows the SPAWNED store according to
`termBeforeMaterialize` (forced earlier when the ready event never arrives,
since only termination can then wake the ready wait). -/
def materTrace (env : DriverEnv) : List Nat :=
  if abortStores env.termEvent = [] then [MPIR_NULL, MPIR_DEBUG_SPAWNED]
  else if env.termBeforeMaterialize || !env.readyEvent then
    [MPIR_NULL, MPIR_DEBUG_ABORTING, MPIR_DEBUG_SPAWNED]
  else [MPIR_NULL, MPIR_DEBUG_SPAWNED, MPIR_DEBUG_ABORTING]

/-- The single `MPIR_Breakpoint` observation produced by the materialisation:
state SPAWNED (just stored), the freshly built table, and its size. -/
def materBps (recs : List ProcInfoRec) : List BreakpointObs :=
  [⟨MPIR_DEBUG_SPAWNED, some (pmix_proc_table_to_mpir recs).2,
    (pmix_proc_table_to_mpir recs).1⟩]

/-- The ATTACH arm of `MPIR_Shim_common`: query the application namespace,
materialise the proctable, call `MPIR_Breakpoint`, finalize, return 0.
(The ATTACH-mode launcher-namespace lookup happens inside
`initialize_as_tool` and is covered by `initOk`; the launcher-terminate
handler is never registered in this mode.) -/
def runAttach (env : DriverEnv) : RunResult :=
  if env.queryAppNamespaceOk = false then
    ⟨some STATUS_FAIL, [MPIR_NULL], [], true⟩
  else
    match env.proctableQuery with
    | none => ⟨some STATUS_FAIL, [MPIR_NULL], [], true⟩
    | some recs =>
      ⟨some 0, [MPIR_NULL, MPIR_DEBUG_SPAWNED], materBps recs, true⟩

/-- The PROXY/NONPROXY arm of `MPIR_Shim_common`: spawn, connect (PROXY),
register the terminate/ready/complete handlers, release launcher rank 0,
wait for ready (the wait also returns when the launcher is already
terminated), materialise the proctable and call `MPIR_Breakpoint`, register
the application-terminate handler (PROXY), release the application, wait
for launch-term, finalize, and return `launcher_exit_code`.  The ABORTING
store appears in the trace once the terminate handler is registered and the
event is delivered; its position relative to the SPAWNED store follows
`termBeforeMaterialize` (forced when the ready event never arrives, since
then only termination can wake the ready wait). -/
def runNonAttach (m : MpirMode) (env : DriverEnv) : RunResult :=
  if env.spawnOk = false then ⟨some STATUS_FAIL, [MPIR_NULL], [], true⟩
  else if m = MpirMode.proxy ∧ env.connectOk = false then
    ⟨some STATUS_FAIL, [MPIR_NULL], [], true⟩
  else if env.regLauncherTermOk = false then
    ⟨some STATUS_FAIL, [MPIR_NULL], [], true⟩
  else if env.regLauncherReadyOk = false then
    ⟨some STATUS_FAIL, MPIR_NULL :: abortStores env.termEvent, [], true⟩
  else if env.releaseLauncherOk = false then
    ⟨some STATUS_FAIL, MPIR_NULL :: abortStores env.termEvent, [], true⟩
  else if env.regLauncherCompleteOk = false then
    ⟨some STATUS_FAIL, MPIR_NULL :: abortStores env.termEvent, [], true⟩
  else if env.readyEvent = false ∧ env.termEvent = none then
    ⟨none, [MPIR_NULL], [], true⟩
  else
    match env.proctableQuery with
    | none => ⟨some STATUS_FAIL, MPIR_NULL :: abortStores env.termEvent, [], true⟩
    | some recs =>
      if m = MpirMode.proxy ∧ env.regAppTermOk = false then
        ⟨some STATUS_FAIL, materTrace env, materBps recs, true⟩
      else if env.releaseAppOk = false then
        ⟨some STATUS_FAIL, materTrace env, materBps recs, true⟩
      else
        match env.termEvent with
        | none => ⟨none, materTrace env, materBps recs, true⟩
        | some c => ⟨some c, materTrace env, materBps recs, true⟩

/-- The body of `MPIR_Shim_common` after option processing: signal handlers,
atexit, tool init, default handler registration, then the mode-specific arm. -/
def runResolved (m : MpirMode) (env : DriverEnv) : RunResult :=
  if env.setupSignalsOk = false then ⟨some STATUS_FAIL, [MPIR_NULL], [], false⟩
  else if env.atexitOk = false then ⟨some STATUS_FAIL, [MPIR_NULL], [], false⟩
  else if env.initOk = false then ⟨some STATUS_FAIL, [MPIR_NULL], [], true⟩
  else if env.regDefaultOk = false then ⟨some STATUS_FAIL, [MPIR_NULL], [], true⟩
  else if m = MpirMode.attach then runAttach env
  else runNonAttach m env

/-- `MPIR_Shim_common`: resolve options (against the initial DYNAMIC value
of the `mpir_mode` global), then run the driver sequence. -/
def MPIR_Shim_common (mode_ : MpirMode) (pid_ : Int) (argv : List String)
    (env : DriverEnv) : RunResult :=
  match process_options MpirMode.dynamic mode_ pid_ argv with
  | none => ⟨some STATUS_FAIL, [MPIR_NULL], [], false⟩
  | some m => runResolved m env

/-- The PROXY/NONPROXY success path: every driver step succeeds, the
proctable query answers, and the launcher-terminate event is delivered. -/
def nonAttachSuccess (m : MpirMode) (env : DriverEnv) : Prop :=
  env.setupSignalsOk = true ∧ env.atexitOk = true ∧ env.initOk = true ∧
  env.regDefaultOk = true ∧ env.spawnOk = true ∧
  (m = MpirMode.proxy → env.connectOk = true) ∧
  env.regLauncherTermOk = true ∧ env.regLauncherReadyOk = true ∧
  env.releaseLauncherOk = true ∧ env.regLauncherCompleteOk = true ∧
  env.proctableQuery.isSome = true ∧
  (m = MpirMode.proxy → env.regAppTermOk = true) ∧
  env.releaseAppOk = true ∧ env.termEvent.isSome = true

/-- The ATTACH success path. -/
def attachSuccess (env : DriverEnv) : Prop :=
  env.setupSignalsOk = true ∧ env.atexitOk = true ∧ env.initOk = true ∧
  env.regDefaultOk = true ∧ env.queryAppNamespaceOk = true ∧
  env.proctableQuery.isSome = true

theorem runNonAttach_success_exit (m : MpirMode) (env : DriverEnv)
    (h : nonAttachSuccess m env) :
    (runNonAttach m env).exit = env.termEvent := by
  obtain ⟨h1, h2, h3, h4, h5, h6, h7, h8, h9, h10, h11, h12, h13, h14⟩ := h
  rcases Option.isSome_iff_exists.mp h11 with ⟨recs, hq⟩
  rcases Option.isSome_iff_exists.mp h14 with ⟨c, ht⟩
  by_cases hm : m = MpirMode.proxy
  · simp [runNonAttach, h5, h6 hm, h7, h8, h9, h10, hq, h12 hm, h13, ht]
  · simp [runNonAttach, h5, hm, h7, h8, h9, h10, hq, h13, ht]

theorem runAttach_success_exit (env : DriverEnv)
    (h5 : env.queryAppNamespaceOk = true)
    (h6 : env.proctableQuery.isSome = true) :
    (runAttach env).exit = some 0 := by
  rcases Option.isSome_iff_exists.mp h6 with ⟨recs, hq⟩
  simp [runAttach, h5, hq]

theorem runAttach_exit_classify (env : DriverEnv) (e : Int)
    (he : (runAttach env).exit = some e) :
    e = STATUS_FAIL ∨ e = 0 := by
  unfold runAttach at he
  rcases hq : env.proctableQuery with - | recs <;> rw [hq] at he <;>
    split_ifs at he <;> simp_all [STATUS_FAIL]

set_option maxHeartbeats 1000000 in
theorem runNonAttach_exit_classify (m : MpirMode) (env : DriverEnv) (e : Int)
    (he : (runNonAttach m env).exit = some e) :
    e = STATUS_FAIL ∨ env.termEvent = some e := by
  unfold runNonAttach at he
  rcases ht : env.termEvent with - | c <;> rw [ht] at he <;>
    (try dsimp only at he) <;>
    repeat' split at he
  all_goals (try (injection he with h; subst h; exact Or.inl rfl))
  all_goals (try injection he)
  all_goals (right; rw [Option.some.injEq]; omega)

theorem runResolved_exit_classify (m : MpirMode) (env : DriverEnv) (e : Int)
    (he : (runResolved m env).exit = some e) :
    e = STATUS_FAIL ∨ (m = MpirMode.attach ∧ e = 0) ∨
      (m ≠ MpirMode.attach ∧ env.termEvent = some e) := by
  unfold runResolved at he
  split_ifs at he with hA hB hC hD hE
  · simp_all [STATUS_FAIL]
  · simp_all [STATUS_FAIL]
  · simp_all [STATUS_FAIL]
  · simp_all [STATUS_FAIL]
  · rcases runAttach_exit_classify env e he with h | h
    · exact Or.inl h
    · exact Or.inr (Or.inl ⟨hE, h⟩)
  · rcases runNonAttach_exit_classify m env e he with h | h
    · exact Or.inl h
    · exact Or.inr (Or.inr ⟨hE, h⟩)

/-- C8: `MPIR_Shim_common` returns the launcher's exit code in resolved
PROXY and NONPROXY modes on the success path, returns 0 in ATTACH mode on
the success path, and every other (shim-failure) return is the non-zero
`STATUS_FAIL`: any returned value is `STATUS_FAIL`, the attach-mode 0, or
the launcher's exit code; a configuration error also returns `STATUS_FAIL`. -/
theorem shim_common_exit_codes (mode_ : MpirMode) (pid_ : Int)
    (argv : List String) (env : DriverEnv) :
    (∀ m, process_options MpirMode.dynamic mode_ pid_ argv = some m →
      (((m = MpirMode.proxy ∨ m = MpirMode.nonproxy) → nonAttachSuccess m env →
        (MPIR_Shim_common mode_ pid_ argv env).exit = env.termEvent) ∧
       (m = MpirMode.attach → attachSuccess env →
        (MPIR_Shim_common mode_ pid_ argv env).exit = some 0) ∧
       (∀ e, (MPIR_Shim_common mode_ pid_ argv env).exit = some e →
        e = STATUS_FAIL ∨ (m = MpirMode.attach ∧ e = 0) ∨
          (m ≠ MpirMode.attach ∧ env.termEvent = some e)))) ∧
    (process_options MpirMode.dynamic mode_ pid_ argv = none →
      (MPIR_Shim_common mode_ pid_ argv env).exit = some STATUS_FAIL) := by
  constructor
  · intro m hm
    have hrw : MPIR_Shim_common mode_ pid_ argv env = runResolved m env := by
      unfold MPIR_Shim_common
      rw [hm]
    refine ⟨?_, ?_, ?_⟩
    · intro hmm hsucc
      rw [hrw]
      have hma : ¬ m = MpirMode.attach := by
        rcases hmm with h | h <;> simp [h]
      have hna : runResolved m env = runNonAttach m env := by
        simp [runResolved, hsucc.1, hsucc.2.1, hsucc.2.2.1, hsucc.2.2.2.1, hma]
      rw [hna]
      exact runNonAttach_success_exit m env hsucc
    · intro hmA hsucc
      rw [hrw]
      have hra : runResolved m env = runAttach env := by
        simp [runResolved, hsucc.1, hsucc.2.1, hsucc.2.2.1, hsucc.2.2.2.1, hmA]
      rw [hra]
      exact runAttach_success_exit env hsucc.2.2.2.2.1 hsucc.2.2.2.2.2
    · intro e he
      rw [hrw] at he
      exact runResolved_exit_classify m env e he
  · intro hnone
    unfold MPIR_Shim_common
    rw [hnone]

/-- All-success environment used to exercise the PROXY success path. -/
def envProxyW : DriverEnv :=
  ⟨true, true, true, true, true, true, true, true, true, true, true,
   some [⟨"app", 0, "node0", "a.out", 9, 0, 0⟩], true, true, true,
   some 7, false⟩

/-- Witness for `shim_common_exit_codes`: a DYNAMIC invocation as `mpirun`
resolves to PROXY; with every step succeeding and the launcher exiting
with code 7, the shim returns 7. -/
theorem shim_common_exit_codes_witness :
    process_options MpirMode.dynamic MpirMode.dynamic 0 ["mpirun"]
      = some MpirMode.proxy ∧
    (MPIR_Shim_common MpirMode.dynamic 0 ["mpirun"] envProxyW).exit = some 7 :=
  ⟨by decide,
   (((shim_common_exit_codes MpirMode.dynamic 0 ["mpirun"] envProxyW).1
      MpirMode.proxy (by decide)).1 (Or.inl rfl)
      ⟨rfl, rfl, rfl, rfl, rfl, fun _ => rfl, rfl, rfl, rfl, rfl, rfl,
       fun _ => rfl, rfl, rfl⟩).trans rfl⟩

/-- C9: in DYNAMIC mode the resolved run mode is NONPROXY exactly when the
basename of `argv[0]` is `prun` and PROXY for any other basename; in ATTACH
mode a target pid that is not positive is a configuration failure, the run
returns `STATUS_FAIL`, and no PMIx call (in particular no `PMIx_tool_init`)
is made. -/
theorem process_options_modes (prior : MpirMode) (pid_ : Int)
    (argv : List String) (env : DriverEnv) :
    (basename (argv.headD "") = "prun" →
      process_options prior MpirMode.dynamic pid_ argv
        = some MpirMode.nonproxy) ∧
    (basename (argv.headD "") ≠ "prun" →
      process_options prior MpirMode.dynamic pid_ argv
        = some MpirMode.proxy) ∧
    (pid_ ≤ 0 →
      process_options prior MpirMode.attach pid_ argv = none ∧
      (MPIR_Shim_common MpirMode.attach pid_ argv env).exit
        = some STATUS_FAIL ∧
      (MPIR_Shim_common MpirMode.attach pid_ argv env).pmixInitCalled
        = false) := by
  refine ⟨?_, ?_, ?_⟩
  · intro h
    unfold process_options
    rw [if_pos h]
  · intro h
    unfold process_options
    rw [if_neg h]
  · intro h
    have hp : process_options MpirMode.dynamic MpirMode.attach pid_ argv
        = none := by
      simp [process_options, h]
    refine ⟨by simp [process_options, h], ?_, ?_⟩ <;>
      · unfold MPIR_Shim_common
        rw [hp]

/-- Witness for `process_options_modes`: `prun` resolves to NONPROXY,
`mpirun` to PROXY, and ATTACH with pid 0 is rejected with no PMIx call. -/
theorem process_options_modes_witness :
    process_options MpirMode.dynamic MpirMode.dynamic 5 ["prun"]
      = some MpirMode.nonproxy ∧
    process_options MpirMode.dynamic MpirMode.dynamic 5 ["/usr/bin/mpirun"]
      = some MpirMode.proxy ∧
    process_options MpirMode.dynamic MpirMode.attach 0 ["prun"] = none ∧
    (MPIR_Shim_common MpirMode.attach 0 ["prun"] envProxyW).pmixInitCalled
      = false :=
  ⟨(process_options_modes MpirMode.dynamic 5 ["prun"] envProxyW).1 (by decide),
   (process_options_modes MpirMode.dynamic 5 ["/usr/bin/mpirun"]
      envProxyW).2.1 (by decide),
   ((process_options_modes MpirMode.dynamic 0 ["prun"] envProxyW).2.2
      (by norm_num)).1,
   ((process_options_modes MpirMode.dynamic 0 ["prun"] envProxyW).2.2
      (by norm_num)).2.2⟩

theorem runAttach_breakpoints (env : DriverEnv) (obs : BreakpointObs)
    (hobs : obs ∈ (runAttach env).breakpoints) :
    ∃ recs, env.proctableQuery = some recs ∧ obs ∈ materBps recs := by
  unfold runAttach at hobs
  rcases hq : env.proctableQuery with - | recs <;> rw [hq] at hobs <;>
    (try dsimp only at hobs) <;>
    split_ifs at hobs <;>
    first
    | exact absurd hobs (List.not_mem_nil _)
    | exact ⟨recs, rfl, hobs⟩

set_option maxHeartbeats 1000000 in
theorem runNonAttach_breakpoints (m : MpirMode) (env : DriverEnv)
    (obs : BreakpointObs)
    (hobs : obs ∈ (runNonAttach m env).breakpoints) :
    ∃ recs, env.proctableQuery = some recs ∧ obs ∈ materBps recs := by
  unfold runNonAttach at hobs
  rcases hq : env.proctableQuery with - | recs <;> rw [hq] at hobs <;>
    rcases ht : env.termEvent with - | c <;> rw [ht] at hobs <;>
    (try dsimp only at hobs) <;>
    repeat' split at hobs
  all_goals first
    | exact absurd hobs (List.not_mem_nil _)
    | exact ⟨recs, rfl, hobs⟩

theorem shim_breakpoints_spec (mode_ : MpirMode) (pid_ : Int)
    (argv : List String) (env : DriverEnv) (obs : BreakpointObs)
    (hobs : obs ∈ (MPIR_Shim_common mode_ pid_ argv env).breakpoints) :
    ∃ recs, env.proctableQuery = some recs ∧ obs ∈ materBps recs := by
  unfold MPIR_Shim_common at hobs
  rcases hpo : process_options MpirMode.dynamic mode_ pid_ argv with - | m <;>
    rw [hpo] at hobs <;> dsimp only at hobs
  · exact absurd hobs (List.not_mem_nil _)
  · unfold runResolved at hobs
    split_ifs at hobs
    · exact absurd hobs (List.not_mem_nil _)
    · exact absurd hobs (List.not_mem_nil _)
    · exact absurd hobs (List.not_mem_nil _)
    · exact absurd hobs (List.not_mem_nil _)
    · exact runAttach_breakpoints env obs hobs
    · exact runNonAttach_breakpoints m env obs hobs

theorem tableOf_populated_of_perm (recs : List ProcInfoRec)
    (h : (recs.map ProcInfoRec.rank).Perm (List.range recs.length)) :
    (pmix_proc_table_to_mpir recs).2.length = (pmix_proc_table_to_mpir recs).1 ∧
    ∀ x ∈ (pmix_proc_table_to_mpir recs).2, x ≠ none := by
  have hnd : (recs.map ProcInfoRec.rank).Nodup :=
    h.nodup_iff.mpr (List.nodup_range _)
  have hb : ∀ r ∈ recs, r.rank < recs.length := by
    intro r hr
    exact List.mem_range.mp (h.mem_iff.mp (List.mem_map_of_mem _ hr))
  have hlen : (pmix_proc_table_to_mpir recs).2.length = recs.length := by
    simpa [pmix_proc_table_to_mpir] using
      materializeLoop_length recs (List.replicate recs.length none)
  refine ⟨by simpa [pmix_proc_table_to_mpir] using hlen, ?_⟩
  intro x hx hxnone
  subst hxnone
  rcases List.mem_iff_getElem.mp hx with ⟨i, hilen, hi⟩
  have hi' : i < recs.length := by omega
  have hmem : i ∈ recs.map ProcInfoRec.rank :=
    h.mem_iff.mpr (List.mem_range.mpr hi')
  rcases List.mem_map.mp hmem with ⟨r, hr, hrank⟩
  have hget := materializeLoop_getElem?_mem recs
    (List.replicate recs.length none) hnd (by simpa using hb) r hr
  rw [hrank] at hget
  have hsome : (pmix_proc_table_to_mpir recs).2[i]? = some (some (procDescOf r)) := by
    simpa [pmix_proc_table_to_mpir] using hget
  rw [List.getElem?_eq_getElem hilen, hi] at hsome
  cases hsome

/-- ATTACH environment whose proctable response carries two records with the
same rank 0: every write lands in bounds, but index 1 is never written. -/
def envDupRank : DriverEnv :=
  ⟨true, true, true, true, true, true, true, true, true, true, true,
   some [⟨"app", 0, "node0", "a.out", 11, 0, 0⟩,
         ⟨"app", 0, "node1", "b.out", 12, 0, 0⟩], true, true, true,
   none, false⟩

/-- C3 counterexample: for a duplicate-rank response (two rank-0 records,
no out-of-bounds write) the run reaches `MPIR_Breakpoint` with
`MPIR_proctable_size = 2` while entry 1 of the table was never initialised
(the `none` below), so the table observed at the breakpoint is not fully
populated. -/
theorem breakpoint_table_not_populated :
    (MPIR_Shim_common MpirMode.attach 5 [] envDupRank).breakpoints =
      [⟨MPIR_DEBUG_SPAWNED,
        some [some ⟨some "node1", some "b.out", 12⟩, none], 2⟩] ∧
    (none : Option MPIR_PROCDESC) ∈
      [some (⟨some "node1", some "b.out", 12⟩ : MPIR_PROCDESC), none] := by
  constructor
  · decide
  · decide

/-- C3 (amended): whenever `MPIR_Breakpoint` executes, `MPIR_debug_state`
is not NULL and `MPIR_proctable` is a non-null pointer to a table of
`MPIR_proctable_size` entries; the table is moreover fully populated
provided the response records' ranks are exactly `{0, ..., N-1}` (for a
duplicate-rank response an entry can remain uninitialised, see the
counterexample). -/
theorem breakpoint_state_and_table (mode_ : MpirMode) (pid_ : Int)
    (argv : List String) (env : DriverEnv) :
    (∀ obs ∈ (MPIR_Shim_common mode_ pid_ argv env).breakpoints,
      obs.debugState ≠ MPIR_NULL ∧
      ∃ tbl, obs.proctable = some tbl ∧ tbl.length = obs.proctableSize) ∧
    ((∀ recs, env.proctableQuery = some recs →
        (recs.map ProcInfoRec.rank).Perm (List.range recs.length)) →
      ∀ obs ∈ (MPIR_Shim_common mode_ pid_ argv env).breakpoints,
        ∃ tbl, obs.proctable = some tbl ∧ ∀ x ∈ tbl, x ≠ none) := by
  constructor
  · intro obs hobs
    rcases shim_breakpoints_spec mode_ pid_ argv env obs hobs with ⟨recs, hq, hmem⟩
    have hobs_eq : obs = ⟨MPIR_DEBUG_SPAWNED,
        some (pmix_proc_table_to_mpir recs).2,
        (pmix_proc_table_to_mpir recs).1⟩ := by
      simpa [materBps] using hmem
    subst hobs_eq
    refine ⟨by simp [MPIR_DEBUG_SPAWNED, MPIR_NULL],
      (pmix_proc_table_to_mpir recs).2, rfl, ?_⟩
    simpa [pmix_proc_table_to_mpir] using
      materializeLoop_length recs (List.replicate recs.length none)
  · intro hwf obs hobs
    rcases shim_breakpoints_spec mode_ pid_ argv env obs hobs with ⟨recs, hq, hmem⟩
    have hobs_eq : obs = ⟨MPIR_DEBUG_SPAWNED,
        some (pmix_proc_table_to_mpir recs).2,
        (pmix_proc_table_to_mpir recs).1⟩ := by
      simpa [materBps] using hmem
    subst hobs_eq
    exact ⟨(pmix_proc_table_to_mpir recs).2, rfl,
      (tableOf_populated_of_perm recs (hwf recs hq)).2⟩

/-- All-success ATTACH environment with a well-formed two-rank response. -/
def envAttachW : DriverEnv :=
  ⟨true, true, true, true, true, true, true, true, true, true, true,
   some [⟨"app", 1, "node1", "a.out", 12, 0, 0⟩,
         ⟨"app", 0, "node0", "a.out", 11, 0, 0⟩], true, true, true,
   none, false⟩

/-- Witness for `breakpoint_state_and_table`: an ATTACH run over a concrete
well-formed two-record response, both the unconditional part and the
populated part with its rank hypothesis discharged. -/
theorem breakpoint_state_and_table_witness :
    (∀ recs, envAttachW.proctableQuery = some recs →
      (recs.map ProcInfoRec.rank).Perm (List.range recs.length)) ∧
    (∀ obs ∈ (MPIR_Shim_common MpirMode.attach 5 [] envAttachW).breakpoints,
      obs.debugState ≠ MPIR_NULL ∧
      ∃ tbl, obs.proctable = some tbl ∧ tbl.length = obs.proctableSize) ∧
    (∀ obs ∈ (MPIR_Shim_common MpirMode.attach 5 [] envAttachW).breakpoints,
      ∃ tbl, obs.proctable = some tbl ∧ ∀ x ∈ tbl, x ≠ none) := by
  have hwf : ∀ recs, envAttachW.proctableQuery = some recs →
      (recs.map ProcInfoRec.rank).Perm (List.range recs.length) := by
    intro recs h
    injection h with hh
    subst hh
    decide
  exact ⟨hwf,
    (breakpoint_state_and_table MpirMode.attach 5 [] envAttachW).1,
    (breakpoint_state_and_table MpirMode.attach 5 [] envAttachW).2 hwf⟩

/-- Environment realising scenario S4 with a racing proctable query: the
launcher dies with code 42 before the ready event (so the ready wait is
woken by `launcher_terminated`), yet the proctable query still succeeds, so
`pmix_proc_table_to_mpir` stores SPAWNED after ABORTING. -/
def envAbortRace : DriverEnv :=
  ⟨true, true, true, true, true, true, true, true, true, true, false,
   some [⟨"app", 0, "node0", "./bad", 123, 0, 0⟩], true, true, true,
   some 42, false⟩

/-- C2 counterexample: in the `envAbortRace` execution the observed
`MPIR_debug_state` sequence is [NULL, ABORTING, SPAWNED], which is not a
subsequence of [NULL, SPAWNED, ABORTING]: after the launcher-terminate
handler stores ABORTING, the driver (woken from the ready wait by
`launcher_terminated`) still runs `pmix_proc_table_to_mpir`, which stores
SPAWNED unconditionally. -/
theorem debug_state_trace_not_monotone :
    (MPIR_Shim_common MpirMode.dynamic 0 ["mpirun", "./bad"]
        envAbortRace).stateTrace
      = [MPIR_NULL, MPIR_DEBUG_ABORTING, MPIR_DEBUG_SPAWNED] ∧
    ¬ (MPIR_Shim_common MpirMode.dynamic 0 ["mpirun", "./bad"]
        envAbortRace).stateTrace.Sublist
      [MPIR_NULL, MPIR_DEBUG_SPAWNED, MPIR_DEBUG_ABORTING] := by
  constructor
  · decide
  · decide

theorem abortStores_cons_sublist (t : Option Int) :
    (MPIR_NULL :: abortStores t).Sublist
      [MPIR_NULL, MPIR_DEBUG_SPAWNED, MPIR_DEBUG_ABORTING] := by
  unfold abortStores
  rcases t with - | c
  · decide
  · dsimp only
    split_ifs <;> decide

theorem materTrace_sublist (env : DriverEnv)
    (hsched : env.termBeforeMaterialize = false)
    (hready : env.readyEvent = true) :
    (materTrace env).Sublist
      [MPIR_NULL, MPIR_DEBUG_SPAWNED, MPIR_DEBUG_ABORTING] := by
  unfold materTrace
  rw [hsched, hready]
  split_ifs with hA hB
  · decide
  · simp at hB
  · decide

/-- C2 (amended): the observed `MPIR_debug_state` sequence is a subsequence
of [NULL, SPAWNED, ABORTING] in every execution in which the
launcher-terminate event is not delivered before the proctable
materialisation (in particular the ready event arrives); the state only
advances NULL to SPAWNED to ABORTING, and ABORTING may be entered directly
from NULL.  Without that scheduling restriction the SPAWNED store of
`pmix_proc_table_to_mpir` can follow ABORTING (see the counterexample). -/
theorem spawned_trace_sublist :
    ([MPIR_NULL, MPIR_DEBUG_SPAWNED] : List Nat).Sublist
      [MPIR_NULL, MPIR_DEBUG_SPAWNED, MPIR_DEBUG_ABORTING] := by
  decide

set_option maxHeartbeats 1000000 in
theorem debug_state_monotone (mode_ : MpirMode) (pid_ : Int)
    (argv : List String) (env : DriverEnv)
    (hsched : env.termBeforeMaterialize = false)
    (hready : env.readyEvent = true) :
    (MPIR_Shim_common mode_ pid_ argv env).stateTrace.Sublist
      [MPIR_NULL, MPIR_DEBUG_SPAWNED, MPIR_DEBUG_ABORTING] := by
  unfold MPIR_Shim_common
  rcases hpo : process_options MpirMode.dynamic mode_ pid_ argv with - | m <;>
    dsimp only
  · decide
  · unfold runResolved
    split_ifs
    · decide
    · decide
    · decide
    · decide
    · unfold runAttach
      rcases hq : env.proctableQuery with - | recs <;> dsimp only <;>
        split_ifs <;>
        first
        | exact spawned_trace_sublist
        | decide
    · unfold runNonAttach
      rcases hq : env.proctableQuery with - | recs <;>
        rcases ht : env.termEvent with - | c <;>
          dsimp only <;> split_ifs <;>
          first
          | exact spawned_trace_sublist
          | exact abortStores_cons_sublist _
          | exact materTrace_sublist env hsched hready
          | decide

/-- Witness for `debug_state_monotone`: the all-success PROXY environment
`envProxyW` (ready event delivered, terminate after materialisation). -/
theorem debug_state_monotone_witness :
    envProxyW.termBeforeMaterialize = false ∧ envProxyW.readyEvent = true ∧
    (MPIR_Shim_common MpirMode.dynamic 0 ["mpirun"] envProxyW).stateTrace.Sublist
      [MPIR_NULL, MPIR_DEBUG_SPAWNED, MPIR_DEBUG_ABORTING] :=
  ⟨rfl, rfl, debug_state_monotone MpirMode.dynamic 0 ["mpirun"] envProxyW rfl rfl⟩
